import Mathlib

/-!
Verification of the request-scoped logging-context pipeline of
`django_logging` against its specification.

The development shallowly embeds the relevant Python modules:

* `django_logging/contextvar/contextvar_manager.py` (`ContextVarManager`),
* `django_logging/middleware/base.py` (`BaseMiddleware`),
* `django_logging/middleware/request_middleware.py` (`RequestLogMiddleware`),
* `django_logging/filters/context_filter.py` (`ContextVarFilter`),
* `django_logging/formatters/{base,json_formatter,flat_formatter,xml_formatter}.py`.

Conventions of the embedding:

* A Python execution context (`contextvars`) is an association list from
  variable name to stored value; an entry is present exactly when the
  variable was explicitly `set` in that context, mirroring the fact that
  `contextvars.copy_context()` enumerates only explicitly-set variables.
* The manager namespaces every key with the fixed constant string
  `"django_logging_"` and `get_contextvars` filters on and strips that
  namespace.  Since every manager operation applies the same injective
  renaming `k ↦ "django_logging_" ++ k`, and no claim involves foreign
  context variables, the embedding stores keys unnamespaced.
* `Ellipsis`, the tombstone value used by `unbind`/`clear`, is the
  `PyVal.ellipsis` constructor; an ordinary bound value `a` is `PyVal.val a`.
* A `contextvars.Token` is `Option (PyVal α)`: `some old` when the variable
  had been set in the context before (`Token.old_value`), `none` when it had
  not (`Token.MISSING`); `ContextVar.reset` with a `none` token removes the
  variable from the context again.
-/

namespace DjangoLogging

/-- A value stored in a Python `ContextVar` by the manager: either the
`Ellipsis` tombstone or an actual bound value. -/
inductive PyVal (α : Type) where
  | ellipsis : PyVal α
  | val : α → PyVal α
deriving DecidableEq, Repr

/-- Python-`dict`-style assignment on an association list: replace the first
entry with the given key in place, else append at the end.  Also models
setting a `ContextVar` inside one execution context. -/
def dSet {β : Type} : List (String × β) → String → β → List (String × β)
  | [], k, v => [(k, v)]
  | (k', v') :: rest, k, v =>
      if k' = k then (k, v) :: rest else (k', v') :: dSet rest k v

/-- Lookup in an association list (Python `dict.get` / reading a
`ContextVar` in one execution context). -/
def dGet {β : Type} : List (String × β) → String → Option β
  | [], _ => none
  | (k', v') :: rest, k => if k' = k then some v' else dGet rest k

/-- Remove every entry with the given key (a `ContextVar.reset` with a
`Token.MISSING` token removes the variable from the context). -/
def dRemove {β : Type} : List (String × β) → String → List (String × β)
  | [], _ => []
  | (k', v') :: rest, k =>
      if k' = k then dRemove rest k else (k', v') :: dRemove rest k

/-- Python `dict.update`: assign every pair of `kvs` into `d`, in order. -/
def dUpdate {β : Type} (d : List (String × β)) (kvs : List (String × β)) :
    List (String × β) :=
  kvs.foldl (fun acc p => dSet acc p.1 p.2) d

/-- One execution context's view of the manager's context variables. -/
abbrev Ctx (α : Type) := List (String × PyVal α)

/-- State of a `ContextVarManager` as seen from one execution context:
`registry` is the process-global `_context_vars` dictionary (we only need
its key set), `ctx` the current execution context's entries. -/
structure MgrState (α : Type) where
  registry : List String
  ctx : Ctx α
deriving DecidableEq, Repr

/-- Register a key in `_context_vars` (`_get_or_create`): insertion-ordered,
no duplicates. -/
def regAdd (r : List String) (k : String) : List String :=
  if k ∈ r then r else r ++ [k]

/-- `ContextVarManager.bind(**kwargs)`: for each pair, `_get_or_create` the
variable and `set` it in the current context. -/
def bind {α : Type} (s : MgrState α) : List (String × α) → MgrState α
  | [] => s
  | (k, v) :: rest =>
      bind ⟨regAdd s.registry k, dSet s.ctx k (.val v)⟩ rest

/-- `ContextVarManager.batch_bind(**kwargs)`: like `bind` but also collects
the token (`var.set`'s return) for each key, in binding order. -/
def batch_bind {α : Type} (s : MgrState α) :
    List (String × α) → MgrState α × List (String × Option (PyVal α))
  | [] => (s, [])
  | (k, v) :: rest =>
      let tok := dGet s.ctx k
      let r := batch_bind ⟨regAdd s.registry k, dSet s.ctx k (.val v)⟩ rest
      (r.1, (k, tok) :: r.2)

/-- `ContextVar.reset(token)` on one key of the current context. -/
def ctxReset {α : Type} (c : Ctx α) (k : String) : Option (PyVal α) → Ctx α
  | some v => dSet c k v
  | none => dRemove c k

/-- `ContextVarManager.reset(tokens)`: reset each key to its token's prior
state (`_get_or_create` also registers the key). -/
def reset {α : Type} (s : MgrState α) :
    List (String × Option (PyVal α)) → MgrState α
  | [] => s
  | (k, tok) :: rest =>
      reset ⟨regAdd s.registry k, ctxReset s.ctx k tok⟩ rest

/-- `ContextVarManager.unbind(key)`: set the tombstone, but only when the
variable already exists in the process-global registry. -/
def unbind {α : Type} (s : MgrState α) (k : String) : MgrState α :=
  if k ∈ s.registry then ⟨s.registry, dSet s.ctx k .ellipsis⟩ else s

/-- `ContextVarManager.clear()`: set the tombstone on every registered
variable in the current execution context. -/
def clear {α : Type} (s : MgrState α) : MgrState α :=
  ⟨s.registry, s.registry.foldl (fun c k => dSet c k .ellipsis) s.ctx⟩

/-- `ContextVarManager.get_contextvars()`: the entries of the current
execution context that are not tombstoned, in context order. -/
def get_contextvars {α : Type} (s : MgrState α) : List (String × α) :=
  s.ctx.filterMap fun p =>
    match p.2 with
    | .val a => some (p.1, a)
    | .ellipsis => none

/-- The snapshot read as a mapping: the value `get_contextvars` associates
to a key, `none` when the key does not appear (never set, or tombstoned). -/
def snapshotGet {α : Type} (s : MgrState α) (k : String) : Option α :=
  match dGet s.ctx k with
  | some (.val a) => some a
  | _ => none

/-- `ContextVarManager.merge_contexts(bound_context, local_context)`:
`local_context.copy()` then `update(bound_context)` — bound wins. -/
def merge_contexts {α : Type} (bound_context local_context : List (String × α)) :
    List (String × α) :=
  dUpdate local_context bound_context

/-- `ContextVarManager.get_merged_context(bound_logger_context)`. -/
def get_merged_context {α : Type} (s : MgrState α)
    (bound_logger_context : List (String × α)) : List (String × α) :=
  merge_contexts bound_logger_context (get_contextvars s)

/-! ### A small language of store operations

Used to state the properties quantified over "every sequence of
bind/unbind/scoped operations".  `raiseErr e` models an exception raised by
client code inside a block; `scoped_context ps body` is the
`with manager.scoped_context(**ps):` block around `body`. -/

mutual
inductive COp (α ε : Type) where
  | bindOp : List (String × α) → COp α ε
  | unbindOp : String → COp α ε
  | raiseErr : ε → COp α ε
  | scoped_context : List (String × α) → COps α ε → COp α ε
inductive COps (α ε : Type) where
  | nil : COps α ε
  | cons : COp α ε → COps α ε → COps α ε
end

mutual
/-- Run one operation.  `scoped_context` is faithful to the source's
`tokens = self.batch_bind(**kwargs); try: yield; finally: self.reset(tokens)`:
the reset runs on both exit paths and the body's error, if any, is returned
(re-raised) unchanged. -/
def runOp {α ε : Type} : MgrState α → COp α ε → MgrState α × Option ε
  | s, .bindOp ps => (bind s ps, none)
  | s, .unbindOp k => (unbind s k, none)
  | s, .raiseErr e => (s, some e)
  | s, .scoped_context ps body =>
      let bb := batch_bind s ps
      let r := runOps bb.1 body
      (reset r.1 bb.2, r.2)
/-- Run a sequence of operations; an error aborts the remainder of the
sequence and propagates. -/
def runOps {α ε : Type} : MgrState α → COps α ε → MgrState α × Option ε
  | s, .nil => (s, none)
  | s, .cons op rest =>
      let r := runOp s op
      match r.2 with
      | some e => (r.1, some e)
      | none => runOps r.1 rest
end

/-! ### Several execution contexts at once

`contextvars` storage is execution-context-local: `ContextVar.set` mutates
only the calling context, while the `_context_vars` registry is
process-global.  `MultiState` makes that explicit; `ROp` tags each manager
operation with the logical execution (context id) performing it.  This is
the model for the concurrency claims: any interleaving of two requests'
operations is some list of tagged operations. -/

structure MultiState (α : Type) where
  registry : List String
  ctxs : Nat → Ctx α

inductive ROp (α : Type) where
  | rbind : Nat → List (String × α) → ROp α
  | runbind : Nat → String → ROp α
  | rclear : Nat → ROp α

/-- The context id an operation runs in. -/
def ROp.ctxId {α : Type} : ROp α → Nat
  | .rbind c _ => c
  | .runbind c _ => c
  | .rclear c => c

/-- Whether an operation binds (sets a non-tombstone value for) key `k`. -/
def ROp.bindsKey {α : Type} (k : String) : ROp α → Bool
  | .rbind _ ps => k ∈ ps.map Prod.fst
  | .runbind _ _ => false
  | .rclear _ => false

/-- Run one tagged operation: the per-context view is threaded through the
single-context semantics; only the acting context's entries change. -/
def mstep {α : Type} (s : MultiState α) (op : ROp α) : MultiState α :=
  let view : MgrState α := ⟨s.registry, s.ctxs op.ctxId⟩
  let view' :=
    match op with
    | .rbind _ ps => bind view ps
    | .runbind _ k => unbind view k
    | .rclear _ => clear view
  { registry := view'.registry,
    ctxs := fun c => if c = op.ctxId then view'.ctx else s.ctxs c }

/-- Run a tagged-operation trace. -/
def mrun {α : Type} (s : MultiState α) (ops : List (ROp α)) : MultiState α :=
  ops.foldl mstep s

/-- Snapshot lookup as seen from context `c` of a multi-context state. -/
def msnapshotGet {α : Type} (s : MultiState α) (c : Nat) (k : String) :
    Option α :=
  snapshotGet ⟨s.registry, s.ctxs c⟩ k

/-! ### The request object and `RequestLogMiddleware`'s helpers

`HttpRequest` keeps exactly the pieces the middleware reads: the `META`
transport-metadata mapping, the `headers` mapping (with `hasHeaders`
modelling `hasattr(request, "headers")`), and the optional `ip_address`
attribute (`hasattr(request, "ip_address")` in `get_ip_address`). -/

structure HttpRequest where
  meta : List (String × String)
  headers : List (String × String)
  hasHeaders : Bool
  ipAttr : Option String
deriving Repr

/-- Python `str.split(sep)` for a one-character separator: splits on every
occurrence, keeping empty pieces, never returning an empty list. -/
def pySplitChar (sep : Char) : List Char → List (List Char)
  | [] => [[]]
  | c :: rest =>
      match pySplitChar sep rest with
      | [] => [[c]]
      | h :: t => if c = sep then [] :: h :: t else (c :: h) :: t

/-- Python `str.strip()` with no argument: drop leading and trailing
whitespace. -/
def pyStrip (cs : List Char) : List Char :=
  ((cs.dropWhile Char.isWhitespace).reverse.dropWhile Char.isWhitespace).reverse

/-- ASCII case folding of one character (the case arms Python `str.lower`
takes on the inputs in this development are all ASCII). -/
def asciiLower (c : Char) : Char :=
  if 'A' ≤ c ∧ c ≤ 'Z' then Char.ofNat (c.toNat + 32) else c

/-- Python `str.lower()` on ASCII text. -/
def pyLower (s : String) : String :=
  String.mk (s.toList.map asciiLower)

/-- Python `x or y` on optional strings: `x` unless it is falsy (`None` or
the empty string), else `y`. -/
def pyOrStr (x y : Option String) : Option String :=
  match x with
  | some s => if s = "" then y else some s
  | none => y

/-- `RequestLogMiddleware.get_request_id`: read `request.headers` when the
attribute exists, then return `request.META.get("HTTP_X_REQUEST_ID") or
request_id`. -/
def get_request_id (req : HttpRequest) : Option String :=
  let request_id :=
    if req.hasHeaders then dGet req.headers "x-request-id" else none
  pyOrStr (dGet req.meta "HTTP_X_REQUEST_ID") request_id

/-- The request id `_prepare_request` binds:
`self.get_request_id(request) or str(uuid4())`, with `fresh` standing for
the `str(uuid4())` draw. -/
def resolveRequestId (req : HttpRequest) (fresh : String) : String :=
  match pyOrStr (get_request_id req) (some fresh) with
  | some s => s
  | none => fresh

/-- `RequestLogMiddleware.get_ip_address`: the cached `request.ip_address`
attribute when present; else the first comma-separated, stripped entry of
`HTTP_X_FORWARDED_FOR` when that header is present and truthy; else
`META.get("REMOTE_ADDR", "Unknown IP")`.  The function only ever reads the
cache attribute; the returned request is the post-call request object,
which the source leaves unchanged (nothing assigns `request.ip_address`). -/
def get_ip_address (req : HttpRequest) : String × HttpRequest :=
  match req.ipAttr with
  | some cached => (cached, req)
  | none =>
    match dGet req.meta "HTTP_X_FORWARDED_FOR" with
    | some fwd =>
        if fwd = "" then (dGet req.meta "REMOTE_ADDR" |>.getD "Unknown IP", req)
        else
          match (pySplitChar ',' fwd.toList).map pyStrip with
          | [] => (dGet req.meta "REMOTE_ADDR" |>.getD "Unknown IP", req)
          | ip :: _ => (String.mk ip, req)
    | none => (dGet req.meta "REMOTE_ADDR" |>.getD "Unknown IP", req)

/-- `RequestLogMiddleware.get_user_agent`. -/
def get_user_agent (req : HttpRequest) : String :=
  dGet req.meta "HTTP_USER_AGENT" |>.getD "Unknown User Agent"

/-! ### The per-request call flow (`__sync_call__` / `__acall__`)

The downstream handler (`self.get_response`) is arbitrary client code that
may itself use the manager; it is modelled as a `COps` program whose run
yields the handler's outcome: `none` for a normal response, `some e` for a
raised exception or cancellation.  The error type distinguishes
cancellation from ordinary exceptions because `__acall__` and
`_async_streaming_wrapper` branch on it. -/

inductive PyErr where
  | cancelledError
  | exc
deriving DecidableEq, Repr

/-- Result of one middleware invocation.  `startedReqId` / `finishedReqId`
are the `request_id` values the context store exposes to the
"REQUEST STARTED" / "REQUEST FINISHED" log records at their emission
points (`none` when the record was never emitted); `warnedCancelled`
records the `logger.warning` emitted by `__acall__`'s
`except asyncio.CancelledError` clause. -/
structure MwResult where
  final : MgrState String
  propagated : Option PyErr
  startedReqId : Option String
  finishedReqId : Option String
  warnedCancelled : Bool
deriving Repr

/-- `_prepare_request`: resolve id/ip/user-agent, bind the three context
entries, emit the "REQUEST STARTED" record, return the request id and the
post-bind store. -/
def _prepare_request (s : MgrState String) (req : HttpRequest)
    (fresh : String) : String × MgrState String :=
  let request_id := resolveRequestId req fresh
  let ip_address := (get_ip_address req).1
  let user_agent := get_user_agent req
  (request_id,
    bind s [("request_id", request_id), ("ip_address", ip_address),
            ("user_agent", user_agent)])

/-- `__sync_call__`: prepare, run the handler, and — only when the handler
returned normally — finalize (emit "REQUEST FINISHED" and `manager.clear()`).
The source wraps `self.get_response(request)` in no `try`/`finally`, so a
raised exception (of any class, `asyncio.CancelledError` included) skips
`_finalize_request` entirely and propagates. -/
def syncCall (s : MgrState String) (req : HttpRequest) (fresh : String)
    (handler : COps String PyErr) : MwResult :=
  let p := _prepare_request s req fresh
  let started := snapshotGet p.2 "request_id"
  let r := runOps p.2 handler
  match r.2 with
  | some e =>
      { final := r.1, propagated := some e, startedReqId := started,
        finishedReqId := none, warnedCancelled := false }
  | none =>
      { final := clear r.1, propagated := none, startedReqId := started,
        finishedReqId := snapshotGet r.1 "request_id",
        warnedCancelled := false }

/-- `__acall__`: identical flow, except that `await self.get_response(...)`
sits in a `try`/`except asyncio.CancelledError` that logs a warning and
re-raises; any other exception propagates uncaught.  `_finalize_request`
runs through `sync_to_async`, which copies the execution context into the
worker thread and restores changed context variables into the caller's
context afterwards (asgiref `_restore_context`), so its `manager.clear()`
is modelled as acting on the same store. -/
def acall (s : MgrState String) (req : HttpRequest) (fresh : String)
    (handler : COps String PyErr) : MwResult :=
  let p := _prepare_request s req fresh
  let started := snapshotGet p.2 "request_id"
  let r := runOps p.2 handler
  match r.2 with
  | some e =>
      { final := r.1, propagated := some e, startedReqId := started,
        finishedReqId := none,
        warnedCancelled := e = PyErr.cancelledError }
  | none =>
      { final := clear r.1, propagated := none, startedReqId := started,
        finishedReqId := snapshotGet r.1 "request_id",
        warnedCancelled := false }

/-! ### `BaseMiddleware` dispatch -/

/-- The downstream handler's calling convention, as
`asgiref.sync.iscoroutinefunction` classifies it at construction time. -/
inductive Convention where
  | blocking
  | cooperative
deriving DecidableEq, Repr

/-- A `BaseMiddleware` instance over response type `ρ`:
`async_mode` is assigned once in `__init__`; the two `Option` fields model
whether a concrete subclass overrode `__sync_call__` / `__acall__`
(`none` = the `BaseMiddleware` default, which raises
`NotImplementedError`). -/
structure BaseMiddleware (ρ : Type) where
  async_mode : Bool
  syncImpl : Option (HttpRequest → ρ)
  asyncImpl : Option (HttpRequest → ρ)

/-- `BaseMiddleware.__init__`: store the handler and derive `async_mode`
from its calling convention, exactly once. -/
def mkBaseMiddleware {ρ : Type} (conv : Convention)
    (syncImpl asyncImpl : Option (HttpRequest → ρ)) : BaseMiddleware ρ :=
  { async_mode := conv = Convention.cooperative,
    syncImpl := syncImpl, asyncImpl := asyncImpl }

/-- Which code path an invocation took. -/
inductive Path where
  | syncPath
  | asyncPath
deriving DecidableEq, Repr

/-- `BaseMiddleware.__call__`: route on the stored `async_mode`; the
selected path raises `NotImplementedError` when the subclass supplied no
implementation for it. -/
def mwCall {ρ : Type} (m : BaseMiddleware ρ) (req : HttpRequest) :
    Path × Except String ρ :=
  if m.async_mode then
    (.asyncPath,
      match m.asyncImpl with
      | some f => .ok (f req)
      | none => .error "NotImplementedError")
  else
    (.syncPath,
      match m.syncImpl with
      | some f => .ok (f req)
      | none => .error "NotImplementedError")

/-! ### Streaming wrappers

A streaming body is modelled as the chunks it yields before it either
exhausts, is cancelled (`asyncio.CancelledError` thrown into the `async
for`), or raises some other exception.  A wrapper run is the ordered trace
of its observable events (log emissions and yielded chunks) together with
what it propagates at the end. -/

inductive StreamEnd where
  | exhausted
  | cancelled
  | failed
deriving DecidableEq, Repr

structure StreamSource (β : Type) where
  chunks : List β
  ending : StreamEnd
deriving Repr

inductive StreamEv (β : Type) where
  | infoLog : String → StreamEv β
  | warnLog : String → StreamEv β
  | errorLog : String → StreamEv β
  | yieldChunk : β → StreamEv β
deriving DecidableEq, Repr

/-- `_sync_streaming_wrapper`: log the start marker, `yield from` the inner
source, log-and-re-raise on `except Exception`, and log the finish marker
after exhaustion.  `asyncio.CancelledError` subclasses `BaseException`, not
`Exception`, so this wrapper lets it pass through without logging. -/
def _sync_streaming_wrapper {β : Type} (src : StreamSource β)
    (request_id : String) : List (StreamEv β) × Option StreamEnd :=
  (StreamEv.infoLog ("Streaming started: request_id=" ++ request_id)
      :: src.chunks.map StreamEv.yieldChunk
      ++ (match src.ending with
          | .exhausted =>
              [.infoLog ("Streaming finished: request_id=" ++ request_id)]
          | .cancelled => []
          | .failed =>
              [.errorLog ("Streaming failed: request_id=" ++ request_id)]),
    match src.ending with
    | .exhausted => none
    | e => some e)

/-- `_async_streaming_wrapper`: like the sync wrapper, with an additional
`except asyncio.CancelledError` clause that logs at warning severity before
re-raising. -/
def _async_streaming_wrapper {β : Type} (src : StreamSource β)
    (request_id : String) : List (StreamEv β) × Option StreamEnd :=
  (StreamEv.infoLog ("Streaming started: request_id=" ++ request_id)
      :: src.chunks.map StreamEv.yieldChunk
      ++ (match src.ending with
          | .exhausted =>
              [.infoLog ("Streaming finished: request_id=" ++ request_id)]
          | .cancelled =>
              [.warnLog ("Streaming was cancelled: request_id=" ++ request_id)]
          | .failed =>
              [.errorLog ("Streaming failed: request_id=" ++ request_id)]),
    match src.ending with
    | .exhausted => none
    | e => some e)

/-- The chunks a wrapper run yields, in order. -/
def yieldsOf {β : Type} (evs : List (StreamEv β)) : List β :=
  evs.filterMap fun ev =>
    match ev with
    | .yieldChunk c => some c
    | _ => none

/-! ### Log records and structured formatters

Python values reachable from a log record are modelled by `PyObj`
(container children are spelled out as mutual list types so that all
recursion over them is structural); JSON output values by `JVal`. -/

mutual
inductive PyObj where
  | pynone : PyObj
  | pystr : String → PyObj
  | pyint : Int → PyObj
  | pybool : Bool → PyObj
  | pydict : PyPairs → PyObj
  | pylist : PyObjs → PyObj
inductive PyPairs where
  | nil : PyPairs
  | cons : String → PyObj → PyPairs → PyPairs
inductive PyObjs where
  | nil : PyObjs
  | cons : PyObj → PyObjs → PyObjs
end

mutual
inductive JVal where
  | jstr : String → JVal
  | jint : Int → JVal
  | jbool : Bool → JVal
  | jnull : JVal
  | jdict : JPairs → JVal
  | jlist : JVals → JVal
inductive JPairs where
  | nil : JPairs
  | cons : String → JVal → JPairs → JPairs
inductive JVals where
  | nil : JVals
  | cons : JVal → JVals → JVals
end

/-- The apostrophe character as a string (used by the FLAT formatter's
quoting). -/
def sq : String := String.singleton (Char.ofNat 39)

mutual
/-- Python `str()` on a record value.  Atomic values are exact
(`str(None) = "None"`, `str(True) = "True"`); the rendering of containers
abbreviates Python's `repr`-based element rendering (no claim depends on
container renderings). -/
def strPy : PyObj → String
  | .pynone => "None"
  | .pystr s => s
  | .pyint n => toString n
  | .pybool b => if b then "True" else "False"
  | .pydict l => "\x7b" ++ strPyPairs l ++ "\x7d"
  | .pylist l => "[" ++ strPyObjs l ++ "]"
def strPyPairs : PyPairs → String
  | .nil => ""
  | .cons k v .nil => k ++ ": " ++ strPy v
  | .cons k v rest => k ++ ": " ++ strPy v ++ ", " ++ strPyPairs rest
def strPyObjs : PyObjs → String
  | .nil => ""
  | .cons v .nil => strPy v
  | .cons v rest => strPy v ++ ", " ++ strPyObjs rest
end

/-- A Python `logging.LogRecord` as the formatters consume it:
`message` is `record.getMessage()`, `asctime` the formatted timestamp,
`attrs` the remaining record attributes, `excText` the
`formatException(record.exc_info)` rendering when `record.exc_info` is
set. -/
structure PyLogRecord where
  message : String
  asctime : String
  attrs : List (String × PyObj)
  excText : Option String

namespace BaseStructuredFormatter

/-- `BaseStructuredFormatter._get_field_value`: the `"message"` and
`"asctime"` pseudo-fields are computed; any other specifier is looked up on
the record, `None` (here `none`) when absent. -/
def _get_field_value (rec : PyLogRecord) (specifier : String) :
    Option PyObj :=
  if specifier = "message" then some (.pystr rec.message)
  else if specifier = "asctime" then some (.pystr rec.asctime)
  else dGet rec.attrs specifier

mutual
/-- `BaseStructuredFormatter._handle_complex_value`: recursively keep
dict/list structure, `str()` everything else. -/
def _handle_complex_value : PyObj → JVal
  | .pydict l => .jdict (handlePairs l)
  | .pylist l => .jlist (handleList l)
  | v => .jstr (strPy v)
def handlePairs : PyPairs → JPairs
  | .nil => .nil
  | .cons k v rest => .cons k (_handle_complex_value v) (handlePairs rest)
def handleList : PyObjs → JVals
  | .nil => .nil
  | .cons v rest => .cons (_handle_complex_value v) (handleList rest)
end

end BaseStructuredFormatter

/-! #### The `key=value` scanner of the JSON formatter

`JSONFormatter.key_value_pattern` is the regular expression
`(?P<key>\w+)=(?P<value>\x7b.*?\x7d|\[.*?\]|\(.*?\)|\S+)`.  The scanner
below implements `finditer`/`sub` for exactly this pattern on ASCII text:
maximal word runs, a `=`, then either a lazily-delimited brace/bracket/paren
literal (`.` does not cross a newline) or, failing those alternatives, a
maximal non-whitespace run.  Matches are non-overlapping and scanning
resumes after each match.  The `fuel` argument (called with
`length + 1`, while every step consumes at least one character) only makes
the recursion structural. -/

def isWordChar (c : Char) : Bool :=
  c.isAlphanum || c = '_'

/-- Maximal `\w+` run at the head of the input. -/
def takeWord : List Char → List Char × List Char
  | [] => ([], [])
  | c :: rest =>
      if isWordChar c then
        let r := takeWord rest
        (c :: r.1, r.2)
      else ([], c :: rest)

/-- Maximal `\S+` run at the head of the input. -/
def takeNonWs : List Char → List Char × List Char
  | [] => ([], [])
  | c :: rest =>
      if c.isWhitespace then ([], c :: rest)
      else
        let r := takeNonWs rest
        (c :: r.1, r.2)

/-- Lazy scan to the first closing delimiter, failing at a newline or end
of input (`.` does not match `\n`). -/
def scanToClose (close : Char) : List Char → Option (List Char × List Char)
  | [] => none
  | c :: rest =>
      if c = close then some ([], rest)
      else if c = '\n' then none
      else (scanToClose close rest).map fun p => (c :: p.1, p.2)

/-- The value alternatives of the pattern, tried in order; returns the
matched value text and the remaining input. -/
def matchValue (cs : List Char) : Option (List Char × List Char) :=
  let delim :=
    match cs with
    | '{' :: rest =>
        (scanToClose '}' rest).map fun p => ('{' :: p.1 ++ ['}'], p.2)
    | '[' :: rest =>
        (scanToClose ']' rest).map fun p => ('[' :: p.1 ++ [']'], p.2)
    | '(' :: rest =>
        (scanToClose ')' rest).map fun p => ('(' :: p.1 ++ [')'], p.2)
    | _ => none
  match delim with
  | some r => some r
  | none =>
      match takeNonWs cs with
      | ([], _) => none
      | (w, rest) => some (w, rest)

/-- One `finditer`/`sub` pass: the matched `(key, value)` texts in order,
and the unmatched characters (what `sub("")` keeps). -/
def scanKVF : Nat → List Char → List (String × String) × List Char
  | 0, cs => ([], cs)
  | _ + 1, [] => ([], [])
  | fuel + 1, c :: rest =>
      if isWordChar c then
        let tw := takeWord (c :: rest)
        match tw.2 with
        | '=' :: afterEq =>
            (match matchValue afterEq with
             | some (v, rem) =>
                 let r := scanKVF fuel rem
                 ((String.mk tw.1, String.mk v) :: r.1, r.2)
             | none =>
                 let r := scanKVF fuel afterEq
                 (r.1, tw.1 ++ '=' :: r.2))
        | _ =>
            let r := scanKVF fuel tw.2
            (r.1, tw.1 ++ r.2)
      else
        let r := scanKVF fuel rest
        (r.1, c :: r.2)

def scanKV (cs : List Char) : List (String × String) × List Char :=
  scanKVF (cs.length + 1) cs

namespace JSONFormatter

/-- Modelled fragment of Python `ast.literal_eval`: the constants
`True`/`False`/`None` and decimal integer literals with an optional sign
(no leading zeros, as in Python source).  Floats, quoted strings and
containers are outside the fragment and are treated as unparsable, i.e.
they take the `ValueError`/`SyntaxError` fallback; no claim exercises
them. -/
def digitsOk (ds : List Char) : Bool :=
  !ds.isEmpty && ds.all Char.isDigit && (ds.head? ≠ some '0' || ds = ['0'])

def natOfDigits (ds : List Char) : Int :=
  ds.foldl (fun n c => 10 * n + (Int.ofNat c.toNat - 48)) 0

def literalEvalModel (value : String) : Option JVal :=
  if value = "True" then some (.jbool true)
  else if value = "False" then some (.jbool false)
  else if value = "None" then some .jnull
  else
    match value.toList with
    | '-' :: ds => if digitsOk ds then some (.jint (-(natOfDigits ds))) else none
    | '+' :: ds => if digitsOk ds then some (.jint (natOfDigits ds)) else none
    | ds => if digitsOk ds then some (.jint (natOfDigits ds)) else none

/-- `JSONFormatter._convert_value`: boolean keyword (case-insensitive)
first, then `ast.literal_eval`, then the raw string fallback. -/
def _convert_value (value : String) : JVal :=
  if pyLower value = "true" || pyLower value = "false" then
    .jbool (pyLower value = "true")
  else
    match literalEvalModel value with
    | some j => j
    | none => .jstr value

/-- `JSONFormatter._extract_key_value_pairs`: run the pattern over the
message and collect converted values into a dict (later duplicate keys
overwrite earlier ones, as in the source's dict assignment). -/
def _extract_key_value_pairs (message : String) : List (String × JVal) :=
  (scanKV message.toList).1.foldl
    (fun d p => dSet d p.1 (_convert_value p.2)) []

/-- `JSONFormatter._remove_key_value_pairs`: `sub("")` then `strip()`. -/
def _remove_key_value_pairs (message : String) : String :=
  String.mk (pyStrip (scanKV message.toList).2)

/-- `JSONFormatter._clean_message`: replace every newline and tab by a
space, then strip. -/
def _clean_message (message : String) : String :=
  String.mk (pyStrip (message.toList.map fun c =>
    if c = '\n' then ' ' else if c = '\t' then ' ' else c))

/-- `JSONFormatter.format`, modelled up to `json.dumps`: the result is the
ordered key/value mapping that `json.dumps(log_data, indent=2)` serializes
(so "the output parses as JSON with field `f == v`" is read off this
mapping). -/
def format (specifiers : List String) (rec : PyLogRecord) :
    List (String × JVal) :=
  let log_data := specifiers.foldl
    (fun d sp =>
      dSet d sp
        (match BaseStructuredFormatter._get_field_value rec sp with
         | some v => BaseStructuredFormatter._handle_complex_value v
         | none => .jstr "None"))
    []
  let kvs := _extract_key_value_pairs rec.message
  let step :=
    if kvs.isEmpty then (log_data, rec.message)
    else (dUpdate log_data kvs, _remove_key_value_pairs rec.message)
  let log_data := dSet step.1 "message" (.jstr (_clean_message step.2))
  match rec.excText with
  | some e => dSet log_data "exception" (.jstr e)
  | none => log_data

end JSONFormatter

namespace FLATFormatter

/-- The `specifier='value'` tokens of `FLATFormatter.format`, one per
specifier whose resolved value is not `None`. -/
def flatParts (specifiers : List String) (rec : PyLogRecord) : List String :=
  specifiers.filterMap fun sp =>
    (BaseStructuredFormatter._get_field_value rec sp).map fun v =>
      sp ++ "=" ++ sq ++ strPy v ++ sq

/-- `FLATFormatter.format`: space-join the tokens, then append the
`exception='...'` suffix exactly when the record carries exception info. -/
def format (specifiers : List String) (rec : PyLogRecord) : String :=
  let flat_line := String.intercalate " " (flatParts specifiers rec)
  match rec.excText with
  | some e => flat_line ++ " exception=" ++ sq ++ e ++ sq
  | none => flat_line

end FLATFormatter

namespace XMLFormatter

/-- `XMLFormatter.format`, modelled at the element level: the ordered
`(tag, content)` children of the `<log>` element, where `content` is the
`_handle_complex_value` output that `_add_field_to_xml` renders (dict →
one grandchild per key, list → indexed grandchildren, else text) and the
`exception` element is appended last exactly when exception info is
present.  A field is skipped when its resolved value `is not in [None, ""]`
fails, i.e. on a missing/`None` value or the empty string.  Serialization
and pretty-printing are not modelled. -/
def logElements (specifiers : List String) (rec : PyLogRecord) :
    List (String × JVal) :=
  (specifiers.filterMap fun sp =>
    match BaseStructuredFormatter._get_field_value rec sp with
    | none => none
    | some .pynone => none
    | some (.pystr "") => none
    | some v => some (sp, BaseStructuredFormatter._handle_complex_value v))
  ++ match rec.excText with
     | some e => [("exception", JVal.jstr e)]
     | none => []

end XMLFormatter

/-! ### `ContextVarFilter` -/

/-- The value the filter leaves in `record.context`: the empty string when
the merged mapping was empty (falsy), else the mapping itself. -/
inductive RecordCtx (α : Type) where
  | emptyStr : RecordCtx α
  | ctxMap : List (String × α) → RecordCtx α
deriving DecidableEq, Repr

namespace ContextVarFilter

/-- `ContextVarFilter.filter`: read the record's directly-attached context
(`getattr(record, "context", {})`, here `bound.getD []`), merge it over the
store snapshot, store `merged or ""` back on the record, and return
`True`. -/
def filter {α : Type} (s : MgrState α) (bound : Option (List (String × α))) :
    Bool × RecordCtx α :=
  let merged := get_merged_context s (bound.getD [])
  (true, if merged.isEmpty then .emptyStr else .ctxMap merged)

end ContextVarFilter

deriving instance DecidableEq for PyObj
deriving instance Repr for PyObj
deriving instance DecidableEq for JVal
deriving instance Repr for JVal

/-! ## Lemmas about the association-list primitives -/

theorem dGet_dSet_self {β : Type} (d : List (String × β)) (k : String) (v : β) :
    dGet (dSet d k v) k = some v := by
  induction d with
  | nil => simp [dSet, dGet]
  | cons p rest ih =>
      obtain ⟨k', v'⟩ := p
      by_cases h : k' = k
      · simp [dSet, h, dGet]
      · simp [dSet, h, dGet, ih]

theorem dGet_dSet_other {β : Type} (d : List (String × β)) {k k' : String}
    (h : k' ≠ k) (v : β) : dGet (dSet d k v) k' = dGet d k' := by
  induction d with
  | nil => simp [dSet, dGet, Ne.symm h]
  | cons p rest ih =>
      obtain ⟨k₀, v₀⟩ := p
      by_cases h0 : k₀ = k
      · subst h0
        simp [dSet, dGet, Ne.symm h]
      · by_cases h1 : k₀ = k'
        · simp [dSet, dGet, h0, h1, h]
        · simp [dSet, dGet, h0, h1, ih]

theorem dSet_ne_nil {β : Type} (d : List (String × β)) (k : String) (v : β) :
    dSet d k v ≠ [] := by
  cases d with
  | nil => simp [dSet]
  | cons p rest =>
      obtain ⟨k', v'⟩ := p
      by_cases h : k' = k <;> simp [dSet, h]

theorem dGet_dRemove_self {β : Type} (d : List (String × β)) (k : String) :
    dGet (dRemove d k) k = none := by
  induction d with
  | nil => simp [dRemove, dGet]
  | cons p rest ih =>
      obtain ⟨k', v'⟩ := p
      by_cases h : k' = k <;> simp [dRemove, dGet, h, ih]

theorem dGet_dRemove_other {β : Type} (d : List (String × β)) {k k' : String}
    (h : k' ≠ k) : dGet (dRemove d k) k' = dGet d k' := by
  induction d with
  | nil => simp [dRemove]
  | cons p rest ih =>
      obtain ⟨k₀, v₀⟩ := p
      by_cases h0 : k₀ = k
      · subst h0
        simp [dRemove, dGet, Ne.symm h, ih]
      · by_cases h1 : k₀ = k'
        · simp [dRemove, dGet, h0, h1, h]
        · simp [dRemove, dGet, h0, h1, ih]

theorem dUpdate_eq_nil_iff {β : Type} (d : List (String × β))
    (kvs : List (String × β)) : dUpdate d kvs = [] ↔ d = [] ∧ kvs = [] := by
  induction kvs generalizing d with
  | nil => simp [dUpdate]
  | cons p rest ih =>
      have h := ih (dSet d p.1 p.2)
      simp only [dUpdate, List.foldl_cons] at h ⊢
      rw [h]
      simp [dSet_ne_nil]

/-! ## Lemmas about the context-variable reset primitive -/

theorem dGet_ctxReset_self {α : Type} (c : Ctx α) (k : String)
    (tok : Option (PyVal α)) : dGet (ctxReset c k tok) k = tok := by
  cases tok with
  | some v => simp [ctxReset, dGet_dSet_self]
  | none => simp [ctxReset, dGet_dRemove_self]

theorem dGet_ctxReset_other {α : Type} (c : Ctx α) {k k' : String}
    (h : k' ≠ k) (tok : Option (PyVal α)) :
    dGet (ctxReset c k tok) k' = dGet c k' := by
  cases tok with
  | some v => simp [ctxReset, dGet_dSet_other _ h]
  | none => simp [ctxReset, dGet_dRemove_other _ h]

/-! ## Lemmas about the registry -/

theorem mem_regAdd_self (r : List String) (k : String) : k ∈ regAdd r k := by
  by_cases h : k ∈ r <;> simp [regAdd, h]

theorem mem_regAdd_of_mem (r : List String) {k : String} (k' : String)
    (h : k ∈ r) : k ∈ regAdd r k' := by
  by_cases h' : k' ∈ r <;> simp [regAdd, h', h]

/-! ## Lemmas about `bind` -/

theorem bind_ctx_other {α : Type} (s : MgrState α) (ps : List (String × α))
    {k : String} (h : k ∉ ps.map Prod.fst) :
    dGet (bind s ps).ctx k = dGet s.ctx k := by
  induction ps generalizing s with
  | nil => rfl
  | cons p rest ih =>
      obtain ⟨k0, v0⟩ := p
      simp only [List.map_cons, List.mem_cons, not_or] at h
      simp [bind, ih _ h.2, dGet_dSet_other _ h.1]

theorem bind_registry_mono {α : Type} (s : MgrState α)
    (ps : List (String × α)) {k : String} (h : k ∈ s.registry) :
    k ∈ (bind s ps).registry := by
  induction ps generalizing s with
  | nil => exact h
  | cons p rest ih => exact ih _ (mem_regAdd_of_mem _ _ h)

theorem bind_registry_of_key {α : Type} (s : MgrState α)
    (ps : List (String × α)) {k : String} (h : k ∈ ps.map Prod.fst) :
    k ∈ (bind s ps).registry := by
  induction ps generalizing s with
  | nil => simp at h
  | cons p rest ih =>
      obtain ⟨k0, v0⟩ := p
      simp only [List.map_cons, List.mem_cons] at h
      cases h with
      | inl h =>
          subst h
          exact bind_registry_mono ⟨regAdd s.registry k, dSet s.ctx k (PyVal.val v0)⟩
            rest (mem_regAdd_self _ _)
      | inr h => exact ih _ h

/-! ## Lemmas about `batch_bind` and `reset` -/

theorem batch_bind_tokens_keys {α : Type} (s : MgrState α)
    (ps : List (String × α)) :
    (batch_bind s ps).2.map Prod.fst = ps.map Prod.fst := by
  induction ps generalizing s with
  | nil => rfl
  | cons p rest ih => simp [batch_bind, ih]

theorem batch_bind_tokens_lookup {α : Type} (s : MgrState α)
    (ps : List (String × α)) {k : String} (h : k ∈ ps.map Prod.fst) :
    dGet (batch_bind s ps).2 k = some (dGet s.ctx k) := by
  induction ps generalizing s with
  | nil => simp at h
  | cons p rest ih =>
      obtain ⟨k0, v0⟩ := p
      by_cases h0 : k0 = k
      · subst h0
        simp [batch_bind, dGet]
      · simp only [List.map_cons, List.mem_cons] at h
        rcases h with h | h
        · exact absurd h.symm h0
        · simp [batch_bind, dGet, h0, ih _ h,
            dGet_dSet_other _ (Ne.symm h0)]

theorem batch_bind_ctx_other {α : Type} (s : MgrState α)
    (ps : List (String × α)) {k : String} (h : k ∉ ps.map Prod.fst) :
    dGet (batch_bind s ps).1.ctx k = dGet s.ctx k := by
  induction ps generalizing s with
  | nil => rfl
  | cons p rest ih =>
      obtain ⟨k0, v0⟩ := p
      simp only [List.map_cons, List.mem_cons, not_or] at h
      simp [batch_bind, ih _ h.2, dGet_dSet_other _ h.1]

theorem batch_bind_registry_mono {α : Type} (s : MgrState α)
    (ps : List (String × α)) {k : String} (h : k ∈ s.registry) :
    k ∈ (batch_bind s ps).1.registry := by
  induction ps generalizing s with
  | nil => exact h
  | cons p rest ih => exact ih _ (mem_regAdd_of_mem _ _ h)

theorem reset_ctx_other {α : Type} (s : MgrState α)
    (toks : List (String × Option (PyVal α))) {k : String}
    (h : k ∉ toks.map Prod.fst) :
    dGet (reset s toks).ctx k = dGet s.ctx k := by
  induction toks generalizing s with
  | nil => rfl
  | cons p rest ih =>
      obtain ⟨k0, t0⟩ := p
      simp only [List.map_cons, List.mem_cons, not_or] at h
      simp [reset, ih _ h.2, dGet_ctxReset_other _ h.1]

theorem reset_restores {α : Type} (s : MgrState α)
    (toks : List (String × Option (PyVal α))) {k : String}
    {tok : Option (PyVal α)} (hnd : (toks.map Prod.fst).Nodup)
    (h : dGet toks k = some tok) :
    dGet (reset s toks).ctx k = tok := by
  induction toks generalizing s with
  | nil => simp [dGet] at h
  | cons p rest ih =>
      obtain ⟨k0, t0⟩ := p
      simp only [List.map_cons, List.nodup_cons] at hnd
      by_cases h0 : k0 = k
      · subst h0
        simp only [dGet, if_true] at h
        injection h with h
        subst h
        rw [reset, reset_ctx_other _ _ hnd.1, dGet_ctxReset_self]
      · simp only [dGet, if_neg h0] at h
        exact ih _ hnd.2 h

theorem reset_registry_mono {α : Type} (s : MgrState α)
    (toks : List (String × Option (PyVal α))) {k : String}
    (h : k ∈ s.registry) : k ∈ (reset s toks).registry := by
  induction toks generalizing s with
  | nil => exact h
  | cons p rest ih => exact ih _ (mem_regAdd_of_mem _ _ h)

/-! ## Lemmas about `unbind` and `clear` -/

theorem unbind_registry {α : Type} (s : MgrState α) (k : String) :
    (unbind s k).registry = s.registry := by
  by_cases h : k ∈ s.registry <;> simp [unbind, h]

theorem unbind_ctx_other {α : Type} (s : MgrState α) {k k' : String}
    (h : k' ≠ k) : dGet (unbind s k).ctx k' = dGet s.ctx k' := by
  by_cases hm : k ∈ s.registry
  · simp [unbind, hm, dGet_dSet_other _ h]
  · simp [unbind, hm]

theorem unbind_snapshot_self {α : Type} (s : MgrState α) (k : String)
    (h : snapshotGet s k = none) : snapshotGet (unbind s k) k = none := by
  by_cases hm : k ∈ s.registry
  · simp [snapshotGet, unbind, hm, dGet_dSet_self]
  · simpa [unbind, hm] using h

theorem clear_foldl_of_mem {α : Type} (l : List String) (c : Ctx α)
    {k : String}
    (h : dGet c k = some PyVal.ellipsis ∨ k ∈ l) :
    dGet (l.foldl (fun c' k' => dSet c' k' PyVal.ellipsis) c) k =
      some PyVal.ellipsis := by
  induction l generalizing c with
  | nil =>
      rcases h with h | h
      · exact h
      · simp at h
  | cons k0 rest ih =>
      simp only [List.foldl_cons]
      apply ih
      by_cases h0 : k0 = k
      · subst h0
        exact Or.inl (dGet_dSet_self _ _ _)
      · rcases h with h | h
        · exact Or.inl (by rw [dGet_dSet_other _ (Ne.symm h0)]; exact h)
        · rcases List.mem_cons.mp h with h | h
          · exact absurd h.symm h0
          · exact Or.inr h

theorem clear_foldl_cases {α : Type} (l : List String) (c : Ctx α)
    (k : String) :
    dGet (l.foldl (fun c' k' => dSet c' k' PyVal.ellipsis) c) k = dGet c k ∨
    dGet (l.foldl (fun c' k' => dSet c' k' PyVal.ellipsis) c) k =
      some PyVal.ellipsis := by
  induction l generalizing c with
  | nil => exact Or.inl rfl
  | cons k0 rest ih =>
      simp only [List.foldl_cons]
      by_cases h0 : k0 = k
      · subst h0
        exact Or.inr (clear_foldl_of_mem _ _ (Or.inl (dGet_dSet_self _ _ _)))
      · rcases ih (dSet c k0 PyVal.ellipsis) with h | h
        · exact Or.inl (by rw [h, dGet_dSet_other _ (Ne.symm h0)])
        · exact Or.inr h

theorem clear_snapshot_of_registered {α : Type} (s : MgrState α) {k : String}
    (h : k ∈ s.registry) : snapshotGet (clear s) k = none := by
  have := clear_foldl_of_mem s.registry s.ctx (Or.inr h)
  simp [snapshotGet, clear, this]

theorem clear_snapshot_none {α : Type} (s : MgrState α) {k : String}
    (h : snapshotGet s k = none) : snapshotGet (clear s) k = none := by
  rcases clear_foldl_cases s.registry s.ctx k with hc | hc
  · simpa [snapshotGet, clear, hc] using h
  · simp [snapshotGet, clear, hc]

/-! ## Lemmas about the operation language -/

mutual
theorem runOp_registry_mono {α ε : Type} (s : MgrState α) (op : COp α ε)
    {k : String} (h : k ∈ s.registry) : k ∈ (runOp s op).1.registry := by
  cases op with
  | bindOp ps => exact bind_registry_mono _ _ h
  | unbindOp k' => rw [runOp, unbind_registry]; exact h
  | raiseErr e => exact h
  | scoped_context ps body =>
      exact reset_registry_mono _ _
        (runOps_registry_mono _ body (batch_bind_registry_mono _ _ h))
theorem runOps_registry_mono {α ε : Type} (s : MgrState α) (ops : COps α ε)
    {k : String} (h : k ∈ s.registry) : k ∈ (runOps s ops).1.registry := by
  cases ops with
  | nil => exact h
  | cons op rest =>
      rw [runOps]
      rcases he : (runOp s op).2 with _ | e
      · simpa [he] using runOps_registry_mono _ rest (runOp_registry_mono s op h)
      · simpa [he] using runOp_registry_mono s op h
end

mutual
/-- Whether every key a program (a body of manager operations) touches lies
in `K`. -/
def opKeysOK {α ε : Type} (K : List String) : COp α ε → Bool
  | .bindOp ps => (ps.map Prod.fst).all fun k => k ∈ K
  | .unbindOp k => k ∈ K
  | .raiseErr _ => true
  | .scoped_context ps body =>
      ((ps.map Prod.fst).all fun k => k ∈ K) && opsKeysOK K body
def opsKeysOK {α ε : Type} (K : List String) : COps α ε → Bool
  | .nil => true
  | .cons op rest => opKeysOK K op && opsKeysOK K rest
end

mutual
theorem runOp_ctx_outside {α ε : Type} (K : List String) (s : MgrState α)
    (op : COp α ε) {k : String} (hk : k ∉ K) (hok : opKeysOK K op = true) :
    dGet (runOp s op).1.ctx k = dGet s.ctx k := by
  cases op with
  | bindOp ps =>
      rw [opKeysOK, List.all_eq_true] at hok
      exact bind_ctx_other _ _ fun hmem => hk (by simpa using hok _ hmem)
  | unbindOp k' =>
      rw [opKeysOK] at hok
      exact unbind_ctx_other _ fun he => hk (by simpa [he] using hok)
  | raiseErr e => rfl
  | scoped_context ps body =>
      rw [opKeysOK, Bool.and_eq_true, List.all_eq_true] at hok
      have hout : k ∉ ps.map Prod.fst := fun hmem =>
        hk (by simpa using hok.1 _ hmem)
      rw [runOp]
      rw [reset_ctx_other _ _ (by rwa [batch_bind_tokens_keys]),
        runOps_ctx_outside K _ body hk hok.2, batch_bind_ctx_other _ _ hout]
theorem runOps_ctx_outside {α ε : Type} (K : List String) (s : MgrState α)
    (ops : COps α ε) {k : String} (hk : k ∉ K)
    (hok : opsKeysOK K ops = true) :
    dGet (runOps s ops).1.ctx k = dGet s.ctx k := by
  cases ops with
  | nil => rfl
  | cons op rest =>
      rw [opsKeysOK, Bool.and_eq_true] at hok
      rw [runOps]
      rcases he : (runOp s op).2 with _ | e
      · simp only [he]
        rw [runOps_ctx_outside K _ rest hk hok.2,
          runOp_ctx_outside K _ op hk hok.1]
      · simpa [he] using runOp_ctx_outside K s op hk hok.1
end

mutual
/-- The error a program raises, read off syntactically. -/
def opErr {α ε : Type} : COp α ε → Option ε
  | .raiseErr e => some e
  | .scoped_context _ body => opsErr body
  | _ => none
def opsErr {α ε : Type} : COps α ε → Option ε
  | .nil => none
  | .cons op rest =>
      match opErr op with
      | some e => some e
      | none => opsErr rest
end

/-- The info-severity log messages of a wrapper run, in order. -/
def infoLogsOf {β : Type} (evs : List (StreamEv β)) : List String :=
  evs.filterMap fun ev =>
    match ev with
    | .infoLog m => some m
    | _ => none

theorem yieldsOf_append {β : Type} (l₁ l₂ : List (StreamEv β)) :
    yieldsOf (l₁ ++ l₂) = yieldsOf l₁ ++ yieldsOf l₂ := by
  simp [yieldsOf, List.filterMap_append]

theorem yieldsOf_map {β : Type} (l : List β) :
    yieldsOf (l.map StreamEv.yieldChunk) = l := by
  induction l with
  | nil => rfl
  | cons x rest ih =>
      show x :: yieldsOf (rest.map StreamEv.yieldChunk) = x :: rest
      rw [ih]

theorem yieldsOf_info {β : Type} (m : String) (l : List (StreamEv β)) :
    yieldsOf (StreamEv.infoLog m :: l) = yieldsOf l := by
  simp [yieldsOf, List.filterMap_cons]

theorem yieldsOf_warn {β : Type} (m : String) (l : List (StreamEv β)) :
    yieldsOf (StreamEv.warnLog m :: l) = yieldsOf l := by
  simp [yieldsOf, List.filterMap_cons]

theorem yieldsOf_error {β : Type} (m : String) (l : List (StreamEv β)) :
    yieldsOf (StreamEv.errorLog m :: l) = yieldsOf l := by
  simp [yieldsOf, List.filterMap_cons]

theorem infoLogsOf_append {β : Type} (l₁ l₂ : List (StreamEv β)) :
    infoLogsOf (l₁ ++ l₂) = infoLogsOf l₁ ++ infoLogsOf l₂ := by
  simp [infoLogsOf, List.filterMap_append]

theorem infoLogsOf_map {β : Type} (l : List β) :
    infoLogsOf (l.map StreamEv.yieldChunk) = [] := by
  induction l with
  | nil => rfl
  | cons x rest ih =>
      show infoLogsOf (rest.map StreamEv.yieldChunk) = []
      exact ih

theorem infoLogsOf_info {β : Type} (m : String) (l : List (StreamEv β)) :
    infoLogsOf (StreamEv.infoLog m :: l) = m :: infoLogsOf l := by
  simp [infoLogsOf, List.filterMap_cons]

theorem infoLogsOf_warn {β : Type} (m : String) (l : List (StreamEv β)) :
    infoLogsOf (StreamEv.warnLog m :: l) = infoLogsOf l := by
  simp [infoLogsOf, List.filterMap_cons]

theorem infoLogsOf_error {β : Type} (m : String) (l : List (StreamEv β)) :
    infoLogsOf (StreamEv.errorLog m :: l) = infoLogsOf l := by
  simp [infoLogsOf, List.filterMap_cons]

theorem getLast?_cons_append_singleton {γ : Type} (x y : γ) (l : List γ) :
    (x :: (l ++ [y])).getLast? = some y := by
  induction l generalizing x with
  | nil => rfl
  | cons h t ih => simpa using ih h

theorem msnapshotGet_mstep_other {α : Type} (s : MultiState α) (op : ROp α)
    {B : Nat} (h : B ≠ op.ctxId) (k : String) :
    msnapshotGet (mstep s op) B k = msnapshotGet s B k := by
  simp [msnapshotGet, snapshotGet, mstep, h]

mutual
theorem runOp_err {α ε : Type} (s : MgrState α) (op : COp α ε) :
    (runOp s op).2 = opErr op := by
  cases op with
  | bindOp ps => rfl
  | unbindOp k => rfl
  | raiseErr e => rfl
  | scoped_context ps body => simpa [runOp, opErr] using runOps_err _ body
theorem runOps_err {α ε : Type} (s : MgrState α) (ops : COps α ε) :
    (runOps s ops).2 = opsErr ops := by
  cases ops with
  | nil => rfl
  | cons op rest =>
      rw [runOps, opsErr]
      rcases he : (runOp s op).2 with _ | e
      · rw [← runOp_err s op, he]
        simpa [he] using runOps_err _ rest
      · rw [← runOp_err s op, he]
end

/-! ## The claims -/

/-- C2: for any interleaved trace of manager operations performed by
several logical executions, an entry bound only by execution `A` is never
visible to `snapshot()` (`get_contextvars`) run from a different execution
`B` — at any point, since the hypotheses are closed under trace prefixes.
Isolation comes from the execution-context-local storage alone; no lock is
modelled. -/
theorem c2_context_isolation {α : Type} (s0 : MultiState α)
    (ops : List (ROp α)) (A B : Nat) (k : String) (hAB : A ≠ B)
    (hbind : ∀ op ∈ ops, op.bindsKey k = true → op.ctxId = A)
    (hinit : msnapshotGet s0 B k = none) :
    msnapshotGet (mrun s0 ops) B k = none := by
  induction ops generalizing s0 with
  | nil => exact hinit
  | cons op rest ih =>
      have hstep : msnapshotGet (mstep s0 op) B k = none := by
        by_cases hc : B = op.ctxId
        · cases op with
          | rbind c ps =>
              have hnk : k ∉ ps.map Prod.fst := by
                intro hmem
                have hA := hbind _ (List.mem_cons_self _ _)
                  (by simpa [ROp.bindsKey] using hmem)
                simp only [ROp.ctxId] at hA hc
                exact hAB (by rw [hA] at hc; exact hc.symm)
              simp only [ROp.ctxId] at hc
              subst hc
              simpa [msnapshotGet, snapshotGet, mstep, ROp.ctxId,
                bind_ctx_other _ _ hnk] using hinit
          | runbind c k' =>
              simp only [ROp.ctxId] at hc
              subst hc
              by_cases hk : k' = k
              · subst hk
                have hub := unbind_snapshot_self ⟨s0.registry, s0.ctxs B⟩ _ hinit
                simpa [msnapshotGet, snapshotGet, mstep, ROp.ctxId] using hub
              · simpa [msnapshotGet, snapshotGet, mstep, ROp.ctxId,
                  unbind_ctx_other _ (fun h => hk h.symm)] using hinit
          | rclear c =>
              simp only [ROp.ctxId] at hc
              subst hc
              have hcl :=
                @clear_snapshot_none α ⟨s0.registry, s0.ctxs B⟩ k hinit
              simpa [msnapshotGet, snapshotGet, mstep, ROp.ctxId] using hcl
        · rw [msnapshotGet_mstep_other _ _ hc]
          exact hinit
      exact ih _ (fun o ho hb => hbind o (List.mem_cons_of_mem _ ho) hb) hstep

/-- C2 witness: one concrete interleaving — context 0 binds
`request_id`, context 1 sees nothing. -/
theorem c2_witness :
    msnapshotGet
      (mrun (⟨[], fun _ => []⟩ : MultiState String)
        [ROp.rbind 0 [("request_id", "A1")], ROp.rclear 1])
      1 "request_id" = none :=
  c2_context_isolation _ _ 0 1 _ (by decide) (by decide) rfl

/-- C3 counterexample: the claim as stated quantifies over every
`scoped(pairs, body)` block for every sequence of bind/unbind/scoped
operations, including bodies that bind keys outside the scoped pairs; a
scoped block over no pairs whose body binds `k` leaves `k` bound after
exit, so the post-snapshot differs from the pre-snapshot. -/
theorem c3_counterexample :
    snapshotGet
      (runOp (⟨[], []⟩ : MgrState String)
        (COp.scoped_context []
          (COps.cons (COp.bindOp [("k", "v")]) COps.nil) : COp String Unit)).1
      "k" ≠ snapshotGet (⟨[], []⟩ : MgrState String) "k" := by
  decide

/-- C3 (amended): for every starting store (hence after every prior
operation sequence) and every scoped block whose body touches only keys
rebound by the block itself, the snapshot after the block equals the
snapshot before it on every key — on the normal exit and on the raising
exit alike — and the block returns (re-raises) exactly the body's error.
The keys of the scoped pairs are distinct, as Python keyword arguments
are. -/
theorem c3_scoped_restores {α ε : Type} (s : MgrState α)
    (ps : List (String × α)) (body : COps α ε)
    (hnd : (ps.map Prod.fst).Nodup)
    (hok : opsKeysOK (ps.map Prod.fst) body = true) :
    (∀ k, snapshotGet (runOp s (COp.scoped_context ps body)).1 k =
      snapshotGet s k)
    ∧ (runOp s (COp.scoped_context ps body)).2 = opsErr body := by
  constructor
  · intro k
    by_cases hk : k ∈ ps.map Prod.fst
    · have htok := batch_bind_tokens_lookup s ps hk
      have hnd' : ((batch_bind s ps).2.map Prod.fst).Nodup := by
        rw [batch_bind_tokens_keys]; exact hnd
      have hctx : dGet (runOp s (COp.scoped_context ps body)).1.ctx k =
          dGet s.ctx k := by
        simp only [runOp]
        exact reset_restores _ _ hnd' htok
      simp [snapshotGet, hctx]
    · have hctx : dGet (runOp s (COp.scoped_context ps body)).1.ctx k =
          dGet s.ctx k := by
        simp only [runOp]
        rw [reset_ctx_other _ _ (by rwa [batch_bind_tokens_keys]),
          runOps_ctx_outside _ _ body hk hok, batch_bind_ctx_other _ _ hk]
      simp [snapshotGet, hctx]
  · simp only [runOp]
    exact runOps_err _ body

/-- C3 witness: a scoped rebinding of an already-bound key whose body both
rebinds the key and raises; the prior value is restored and the error
propagates. -/
theorem c3_witness :
    (snapshotGet
        (runOp (⟨["k"], [("k", PyVal.val "0")]⟩ : MgrState String)
          (COp.scoped_context [("k", "v")]
            (COps.cons (COp.bindOp [("k", "w")])
              (COps.cons (COp.raiseErr ()) COps.nil)))).1 "k"
      = snapshotGet (⟨["k"], [("k", PyVal.val "0")]⟩ : MgrState String) "k")
    ∧ (runOp (⟨["k"], [("k", PyVal.val "0")]⟩ : MgrState String)
        (COp.scoped_context [("k", "v")]
          (COps.cons (COp.bindOp [("k", "w")])
            (COps.cons (COp.raiseErr ()) COps.nil)))).2 = some () := by
  refine ⟨(c3_scoped_restores _ _ _ (by decide) (by decide)).1 "k", ?_⟩
  exact ((c3_scoped_restores _ _ _ (by decide) (by decide)).2).trans rfl

/-- C6: both streaming wrappers yield exactly the source's chunks in
order; for each wrapper the started marker is the first event, on
exhaustion the finished marker is last and nothing propagates, on any
mid-stream error the error log is last (so no chunk follows it) and the
error propagates unchanged, and the finished info marker appears only on
the exhaustion path.  Cancellation during draining arises only in the
cooperative execution model (the blocking path has no suspension points),
and there the async wrapper's warning log is last and the cancellation
propagates unchanged; the sync wrapper's `except Exception` clause does
not intercept `asyncio.CancelledError` (a `BaseException`), so the
embedding lets it propagate unchanged there too, unlogged. -/
theorem c6_streaming_wrapper {β : Type} (src : StreamSource β)
    (rid : String) :
    (yieldsOf (_async_streaming_wrapper src rid).1 = src.chunks)
    ∧ (yieldsOf (_sync_streaming_wrapper src rid).1 = src.chunks)
    ∧ ((_async_streaming_wrapper src rid).1.head? =
        some (StreamEv.infoLog ("Streaming started: request_id=" ++ rid)))
    ∧ (src.ending = StreamEnd.exhausted →
        (_async_streaming_wrapper src rid).1.getLast? =
          some (StreamEv.infoLog ("Streaming finished: request_id=" ++ rid))
        ∧ (_async_streaming_wrapper src rid).2 = none)
    ∧ (src.ending = StreamEnd.cancelled →
        (_async_streaming_wrapper src rid).1.getLast? =
          some (StreamEv.warnLog
            ("Streaming was cancelled: request_id=" ++ rid))
        ∧ (_async_streaming_wrapper src rid).2 = some StreamEnd.cancelled)
    ∧ (src.ending = StreamEnd.failed →
        (_async_streaming_wrapper src rid).1.getLast? =
          some (StreamEv.errorLog ("Streaming failed: request_id=" ++ rid))
        ∧ (_async_streaming_wrapper src rid).2 = some StreamEnd.failed)
    ∧ (src.ending ≠ StreamEnd.exhausted →
        infoLogsOf (_async_streaming_wrapper src rid).1
          = ["Streaming started: request_id=" ++ rid])
    ∧ ((_sync_streaming_wrapper src rid).1.head? =
        some (StreamEv.infoLog ("Streaming started: request_id=" ++ rid)))
    ∧ (src.ending = StreamEnd.exhausted →
        (_sync_streaming_wrapper src rid).1.getLast? =
          some (StreamEv.infoLog ("Streaming finished: request_id=" ++ rid))
        ∧ (_sync_streaming_wrapper src rid).2 = none)
    ∧ (src.ending = StreamEnd.failed →
        (_sync_streaming_wrapper src rid).1.getLast? =
          some (StreamEv.errorLog ("Streaming failed: request_id=" ++ rid))
        ∧ (_sync_streaming_wrapper src rid).2 = some StreamEnd.failed)
    ∧ (src.ending = StreamEnd.cancelled →
        (_sync_streaming_wrapper src rid).2 = some StreamEnd.cancelled)
    ∧ (src.ending ≠ StreamEnd.exhausted →
        infoLogsOf (_sync_streaming_wrapper src rid).1
          = ["Streaming started: request_id=" ++ rid]) := by
  obtain ⟨chunks, ending⟩ := src
  have hynil : yieldsOf ([] : List (StreamEv β)) = [] := rfl
  have hinil : infoLogsOf ([] : List (StreamEv β)) = [] := rfl
  cases ending <;>
    simp [_async_streaming_wrapper, _sync_streaming_wrapper,
      yieldsOf_append, yieldsOf_map, yieldsOf_info, yieldsOf_warn,
      yieldsOf_error, infoLogsOf_append, infoLogsOf_map, infoLogsOf_info,
      infoLogsOf_warn, infoLogsOf_error, getLast?_cons_append_singleton,
      hynil, hinil]

/-- C6 witness: a cancelled two-chunk source — chunks pass through in
order and the cancellation is logged then re-raised. -/
theorem c6_witness :
    yieldsOf
      (_async_streaming_wrapper
        (⟨["chunk1", "chunk2"], StreamEnd.cancelled⟩ : StreamSource String)
        "r").1 = ["chunk1", "chunk2"]
    ∧ (_async_streaming_wrapper
        (⟨["chunk1", "chunk2"], StreamEnd.cancelled⟩ : StreamSource String)
        "r").2 = some StreamEnd.cancelled :=
  ⟨(c6_streaming_wrapper _ _).1,
   ((c6_streaming_wrapper _ _).2.2.2.2.1 rfl).2⟩

/-- C7: `async_mode` is derived once, in the constructor, from the
downstream handler's calling convention; the middleware value is immutable
afterwards (the source never reassigns it), so every invocation of a
middleware built around a cooperative handler routes through the
cooperative path and never the blocking one, and vice versa; and when the
selected path has no subclass implementation, the invocation raises
`NotImplementedError` instead of silently returning. -/
theorem c7_dispatch_mode_fixed {ρ : Type} (conv : Convention)
    (si ai : Option (HttpRequest → ρ)) (req : HttpRequest) :
    ((mwCall (mkBaseMiddleware conv si ai) req).1 =
      if conv = Convention.cooperative then Path.asyncPath else Path.syncPath)
    ∧ (conv = Convention.cooperative → ai = none →
        (mwCall (mkBaseMiddleware conv si ai) req).2 =
          Except.error "NotImplementedError")
    ∧ (conv = Convention.blocking → si = none →
        (mwCall (mkBaseMiddleware conv si ai) req).2 =
          Except.error "NotImplementedError") := by
  cases conv <;> rcases si with _ | f <;> rcases ai with _ | g <;>
    simp [mwCall, mkBaseMiddleware]

theorem prepare_ctx_key (s : MgrState String) (req : HttpRequest)
    (fresh : String) :
    dGet (_prepare_request s req fresh).2.ctx "request_id" =
      some (PyVal.val (resolveRequestId req fresh)) := by
  simp only [_prepare_request, bind]
  rw [dGet_dSet_other _ (by decide), dGet_dSet_other _ (by decide),
    dGet_dSet_self]

/-- C1 counterexample: a handler that raises skips `_finalize_request`
entirely (the source has no `try`/`finally` around
`self.get_response(request)`), so the `request_id` entry bound by
`_prepare_request` is still visible in the execution context after the
middleware propagates the error — the claim's "cleanup runs even when the
downstream handler raised" fails. -/
theorem c1_counterexample :
    (syncCall (⟨[], []⟩ : MgrState String)
      ⟨[("REMOTE_ADDR", "1.2.3.4")], [], false, none⟩ "rid0"
      (COps.cons (COp.raiseErr PyErr.exc) COps.nil)).propagated
      = some PyErr.exc
    ∧ snapshotGet
        (syncCall (⟨[], []⟩ : MgrState String)
          ⟨[("REMOTE_ADDR", "1.2.3.4")], [], false, none⟩ "rid0"
          (COps.cons (COp.raiseErr PyErr.exc) COps.nil)).final "request_id"
      = some "rid0" := by
  exact ⟨rfl, rfl⟩

/-- C1 (amended): when the downstream handler returns normally,
finalization clears every context entry bound by `_prepare_request`
(none of `request_id`/`ip_address`/`user_agent` is visible afterwards);
when the handler raises or is cancelled, no cleanup step runs — the final
store is exactly the post-handler store, bindings included.  `__acall__`
differs from `__sync_call__` only in logging a warning on cancellation:
its final store and propagated error coincide with the sync path's. -/
theorem c1_context_cleanup (s : MgrState String) (req : HttpRequest)
    (fresh : String) (handler : COps String PyErr) :
    ((syncCall s req fresh handler).propagated = none →
      snapshotGet (syncCall s req fresh handler).final "request_id" = none
      ∧ snapshotGet (syncCall s req fresh handler).final "ip_address" = none
      ∧ snapshotGet (syncCall s req fresh handler).final "user_agent" = none)
    ∧ (∀ e, (syncCall s req fresh handler).propagated = some e →
      (syncCall s req fresh handler).final =
        (runOps (_prepare_request s req fresh).2 handler).1)
    ∧ (acall s req fresh handler).final = (syncCall s req fresh handler).final
    ∧ (acall s req fresh handler).propagated =
        (syncCall s req fresh handler).propagated := by
  have hreg : ∀ key ∈ (["request_id", "ip_address", "user_agent"] :
      List String), key ∈ (_prepare_request s req fresh).2.registry := by
    intro key hkey
    simp only [_prepare_request]
    apply bind_registry_of_key
    simpa using hkey
  have hregr : ∀ key ∈ (["request_id", "ip_address", "user_agent"] :
      List String),
      key ∈ (runOps (_prepare_request s req fresh).2 handler).1.registry :=
    fun key hkey => runOps_registry_mono _ _ (hreg key hkey)
  rcases he : (runOps (_prepare_request s req fresh).2 handler).2 with _ | e
  · refine ⟨fun _ => ?_, fun e hp => ?_, ?_, ?_⟩
    · refine ⟨?_, ?_, ?_⟩ <;>
        · simp only [syncCall, he]
          exact clear_snapshot_of_registered _ (hregr _ (by simp))
    · simp [syncCall, he] at hp
    · simp [syncCall, acall, he]
    · simp [syncCall, acall, he]
  · refine ⟨fun hp => ?_, fun e' hp => ?_, ?_, ?_⟩
    · simp [syncCall, he] at hp
    · simp [syncCall, he]
    · simp [syncCall, acall, he]
    · simp [syncCall, acall, he]

/-- C1 witness: a handler that completes normally — afterwards none of the
three prepared entries is visible. -/
theorem c1_witness :
    snapshotGet
      (syncCall (⟨[], []⟩ : MgrState String)
        ⟨[("REMOTE_ADDR", "1.2.3.4")], [], false, none⟩ "rid0"
        COps.nil).final "request_id" = none :=
  ((c1_context_cleanup (⟨[], []⟩ : MgrState String)
    ⟨[("REMOTE_ADDR", "1.2.3.4")], [], false, none⟩ "rid0" COps.nil).1
    rfl).1

/-- C4 counterexample: when the inbound header (`request.headers`,
`x-request-id`) and the transport-metadata field (`request.META`,
`HTTP_X_REQUEST_ID`) carry different ids, `get_request_id` returns
`META.get("HTTP_X_REQUEST_ID") or request_id` — the metadata field wins,
not the header as the claim states. -/
theorem c4_counterexample :
    resolveRequestId
      ⟨[("HTTP_X_REQUEST_ID", "M")], [("x-request-id", "H")], true, none⟩
      "F" = "M"
    ∧ ("M" : String) ≠ "H" := by
  exact ⟨rfl, by decide⟩

/-- C4 (amended): request-id resolution gives precedence to the
transport-metadata field; the inbound header is only the fallback.  When
neither source yields an id, the freshly generated id (a `uuid4` string,
hence non-empty) is used, and one resolved id is bound once by prepare and
is the id the store exposes to both the "started" and the "finished"
records, for any handler that does not itself rebind `request_id`. -/
theorem c4_request_id_resolution (req : HttpRequest) (fresh : String) :
    (∀ m, dGet req.meta "HTTP_X_REQUEST_ID" = some m → m ≠ "" →
      resolveRequestId req fresh = m)
    ∧ (get_request_id req = none → fresh ≠ "" →
      resolveRequestId req fresh = fresh ∧ resolveRequestId req fresh ≠ "")
    ∧ (∀ (s : MgrState String) (K : List String) (handler : COps String PyErr),
        "request_id" ∉ K → opsKeysOK K handler = true →
        (syncCall s req fresh handler).startedReqId =
          some (resolveRequestId req fresh)
        ∧ ((syncCall s req fresh handler).propagated = none →
          (syncCall s req fresh handler).finishedReqId =
            some (resolveRequestId req fresh))) := by
  refine ⟨fun m hm hne => ?_, fun hn hf => ?_, fun s K handler hK hok => ?_⟩
  · simp [resolveRequestId, get_request_id, pyOrStr, hm, hne]
  · simp [resolveRequestId, hn, pyOrStr]
    exact hf
  · have hstart : snapshotGet (_prepare_request s req fresh).2 "request_id" =
        some (resolveRequestId req fresh) := by
      simp [snapshotGet, prepare_ctx_key]
    have hfin : snapshotGet
        (runOps (_prepare_request s req fresh).2 handler).1 "request_id" =
        some (resolveRequestId req fresh) := by
      have hpres := runOps_ctx_outside K
        (_prepare_request s req fresh).2 handler hK hok
      simp [snapshotGet, hpres, prepare_ctx_key]
    rcases he : (runOps (_prepare_request s req fresh).2 handler).2 with _ | e
    · constructor
      · simp only [syncCall, he]
        exact hstart
      · intro _
        simp only [syncCall, he]
        exact hfin
    · constructor
      · simp only [syncCall, he]
        exact hstart
      · intro hp
        simp [syncCall, he] at hp

/-- C4 witness: a request whose metadata carries the id. -/
theorem c4_witness :
    resolveRequestId ⟨[("HTTP_X_REQUEST_ID", "M")], [], false, none⟩ "F"
      = "M" :=
  (c4_request_id_resolution ⟨[("HTTP_X_REQUEST_ID", "M")], [], false, none⟩
    "F").1 "M" rfl (by decide)

/-- C5: evaluation at the failing input.  `get_ip_address` resolves the
first forwarded-for entry correctly, but it never assigns
`request.ip_address`: after the call (and hence after any number of
repeated calls) the cache attribute is still absent, although the method's
own docstring says "Caches the result for reuse". -/
theorem c5_ip_cache_never_written :
    (get_ip_address
      ⟨[("HTTP_X_FORWARDED_FOR", "203.0.113.5, 70.41.3.18")], [], false,
        none⟩).1 = "203.0.113.5"
    ∧ (get_ip_address
        ((get_ip_address
          ⟨[("HTTP_X_FORWARDED_FOR", "203.0.113.5, 70.41.3.18")], [], false,
            none⟩).2)).2.ipAttr = none := by
  exact ⟨by decide, rfl⟩

/-- C7 witness: a cooperative-handler middleware with no `__acall__`
override fails loudly. -/
theorem c7_witness :
    (mwCall
      (mkBaseMiddleware Convention.cooperative
        (none : Option (HttpRequest → Nat)) none)
      ⟨[], [], false, none⟩).2 = Except.error "NotImplementedError" :=
  (c7_dispatch_mode_fixed Convention.cooperative none none
    ⟨[], [], false, none⟩).2.1 rfl rfl

/-- C8: on the record whose rendered message is
`"user_id=123 action=login is_active=True"`, whatever the declared
specifiers and record attributes, the JSON mapping carries `user_id` as
the integer `123` (literal parse), `action` as the string `"login"`
(raw-string fallback), `is_active` as the boolean `true` (boolean-keyword
branch, tried before the literal parse), and a `message` field with the
matched tokens stripped (here: empty). -/
theorem c8_json_key_value_typing (specifiers : List String)
    (attrs : List (String × PyObj)) (asctime : String) :
    dGet (JSONFormatter.format specifiers
      ⟨"user_id=123 action=login is_active=True", asctime, attrs, none⟩)
      "user_id" = some (JVal.jint 123)
    ∧ dGet (JSONFormatter.format specifiers
        ⟨"user_id=123 action=login is_active=True", asctime, attrs, none⟩)
        "action" = some (JVal.jstr "login")
    ∧ dGet (JSONFormatter.format specifiers
        ⟨"user_id=123 action=login is_active=True", asctime, attrs, none⟩)
        "is_active" = some (JVal.jbool true)
    ∧ dGet (JSONFormatter.format specifiers
        ⟨"user_id=123 action=login is_active=True", asctime, attrs, none⟩)
        "message" = some (JVal.jstr "") := by
  have hkv : JSONFormatter._extract_key_value_pairs
      "user_id=123 action=login is_active=True" =
      [("user_id", JVal.jint 123), ("action", JVal.jstr "login"),
       ("is_active", JVal.jbool true)] := rfl
  have hrm : JSONFormatter._remove_key_value_pairs
      "user_id=123 action=login is_active=True" = "" := rfl
  have hcl : JSONFormatter._clean_message "" = "" := rfl
  refine ⟨?_, ?_, ?_, ?_⟩ <;>
    simp only [JSONFormatter.format, hkv, hrm, hcl, List.isEmpty_cons,
      Bool.false_eq_true, if_false, dUpdate, List.foldl_cons,
      List.foldl_nil]
  · rw [dGet_dSet_other _ (by decide), dGet_dSet_other _ (by decide),
      dGet_dSet_other _ (by decide), dGet_dSet_self]
  · rw [dGet_dSet_other _ (by decide), dGet_dSet_other _ (by decide),
      dGet_dSet_self]
  · rw [dGet_dSet_other _ (by decide), dGet_dSet_self]
  · rw [dGet_dSet_self]

theorem filterMap_filter_ne {γ δ : Type} [DecidableEq γ] (f : γ → Option δ)
    (x : γ) (hf : f x = none) (l : List γ) :
    l.filterMap f = (l.filter fun y => y ≠ x).filterMap f := by
  induction l with
  | nil => rfl
  | cons y rest ih =>
      by_cases hy : y = x
      · subst hy
        simp [List.filterMap_cons, List.filter_cons, hf, ih]
      · simp [List.filterMap_cons, List.filter_cons, hy, ih]

/-- C9 counterexample: for the record `⟨message "m", no attributes, no
exception⟩` and the single declared field `missing`, the JSON formatter
does not drop the unresolved field — it appears, bound to the string
`"None"` (`str(None)` through `_handle_complex_value`) — and the FLAT
formatter does not render an explicit `missing='...'` token: its output is
empty.  Both halves of the claim's drop/render split fail on the code
(only the XML half matches it). -/
theorem c9_counterexample :
    dGet (JSONFormatter.format ["missing"] ⟨"m", "t", [], none⟩) "missing"
      = some (JVal.jstr "None")
    ∧ FLATFormatter.format ["missing"] ⟨"m", "t", [], none⟩ = ""
    ∧ XMLFormatter.logElements ["missing"] ⟨"m", "t", [], none⟩ = [] := by
  exact ⟨rfl, rfl, rfl⟩

/-- C9 (amended): no formatter raises on an unresolved declared field (all
three formatters are total); the XML and FLAT formatters drop such a field
silently — their output is the output for the specifier list with that
field removed — while the JSON formatter keeps the field and renders it as
the string `"None"`. -/
theorem c9_unresolved_fields (rec : PyLogRecord) (sp : String)
    (specs : List String)
    (h : BaseStructuredFormatter._get_field_value rec sp = none)
    (hkv : JSONFormatter._extract_key_value_pairs rec.message = [])
    (hexc : rec.excText = none)
    (hm : sp ≠ "message") :
    dGet (JSONFormatter.format [sp] rec) sp = some (JVal.jstr "None")
    ∧ XMLFormatter.logElements specs rec =
        XMLFormatter.logElements (specs.filter fun s' => s' ≠ sp) rec
    ∧ FLATFormatter.flatParts specs rec =
        FLATFormatter.flatParts (specs.filter fun s' => s' ≠ sp) rec := by
  refine ⟨?_, ?_, ?_⟩
  · simp only [JSONFormatter.format, hkv, hexc, List.isEmpty_nil, if_true,
      List.foldl_cons, List.foldl_nil, h]
    rw [dGet_dSet_other _ hm, dGet_dSet_self]
  · unfold XMLFormatter.logElements
    rw [filterMap_filter_ne _ sp (by simp [h])]
  · unfold FLATFormatter.flatParts
    rw [filterMap_filter_ne _ sp (by simp [h])]

/-- C9 witness: the record with message `"hello"` and no attributes; the
single unresolved specifier `missing` is rendered as `"None"` by the JSON
formatter. -/
theorem c9_witness :
    dGet (JSONFormatter.format ["missing"] ⟨"hello", "t", [], none⟩)
      "missing" = some (JVal.jstr "None") :=
  (c9_unresolved_fields ⟨"hello", "t", [], none⟩ "missing" [] rfl rfl rfl
    (by decide)).1

/-- C10: `ContextVarFilter.filter` returns `True` for every record, and
the context it stores on the record is the empty string exactly when the
merge of the record's directly-attached context over the store snapshot is
empty (which happens exactly when both are empty); a non-empty merge is
attached as the mapping itself. -/
theorem c10_filter_context {α : Type} (s : MgrState α)
    (bound : Option (List (String × α))) :
    (ContextVarFilter.filter s bound).1 = true
    ∧ ((bound.getD []) = [] ∧ get_contextvars s = [] ↔
        (ContextVarFilter.filter s bound).2 = RecordCtx.emptyStr)
    ∧ (¬((bound.getD []) = [] ∧ get_contextvars s = []) →
        (ContextVarFilter.filter s bound).2 =
          RecordCtx.ctxMap (get_merged_context s (bound.getD []))) := by
  have hiff : get_merged_context s (bound.getD []) = [] ↔
      (bound.getD []) = [] ∧ get_contextvars s = [] := by
    unfold get_merged_context merge_contexts
    rw [dUpdate_eq_nil_iff]
    exact and_comm
  refine ⟨rfl, ?_, ?_⟩
  · by_cases hm : get_merged_context s (bound.getD []) = []
    · exact ⟨fun _ => by simp [ContextVarFilter.filter, List.isEmpty_iff, hm],
        fun _ => hiff.mp hm⟩
    · have hne : ¬((bound.getD []) = [] ∧ get_contextvars s = []) :=
        fun hh => hm (hiff.mpr hh)
      exact ⟨fun hh => absurd hh hne,
        fun heq => by
          simp [ContextVarFilter.filter, List.isEmpty_iff, hm] at heq⟩
  · intro hne
    have hm : ¬ get_merged_context s (bound.getD []) = [] := fun hh =>
      hne (hiff.mp hh)
    simp [ContextVarFilter.filter, List.isEmpty_iff, hm]

/-- C10 witness: an empty store and no attached context give `context = ""`;
a store with one bound entry gives the mapping. -/
theorem c10_witness :
    (ContextVarFilter.filter (⟨[], []⟩ : MgrState String) none).2 =
      RecordCtx.emptyStr
    ∧ (ContextVarFilter.filter
        (⟨["k"], [("k", PyVal.val "v")]⟩ : MgrState String) none).2 =
      RecordCtx.ctxMap [("k", "v")] := by
  constructor
  · exact (c10_filter_context (⟨[], []⟩ : MgrState String) none).2.1.mp
      ⟨rfl, rfl⟩
  · exact ((c10_filter_context
      (⟨["k"], [("k", PyVal.val "v")]⟩ : MgrState String) none).2.2
      (by decide)).trans rfl

end DjangoLogging
